import Mathlib

/-!
# Verification of `gitlab-registry-cleanup-hook.py`

Shallow embedding of the cleanup webhook program and proofs about it.

The program (single Python file) consists of:
* a webhook gate `validate` (headers, body fields, merge state, registry flag);
* a branch slugifier (lines 123–126: `.lower()`, `[:63]`,
  `re.sub('[^a-z0-9-]+', '-', s)`, `re.sub('^-*([a-z0-9-]+[a-z0-9])-*$', '\\1', s)`);
* image-name resolution `get_image_delete_list` (template split on `,`,
  `%`-substitution of `branch` and `project_path`);
* per-tag deletion `delete_image` and the orchestration loop `cleanup`
  (tag enumeration, last-non-200-wins status aggregation, early abort on a
  missing/null `tags` field, HTTP-error catch per tag).

Strings are modelled as Lean `String`/`List Char`; the registry and GitLab
clients are modelled as oracle function records; a raised
`requests.exceptions.HTTPError` is modelled as `Except.error` carrying the
error's detail text.
-/

namespace Hook

/-! ## Character classes of the slugifier regexes -/

/-- `[a-z]` (ASCII lowercase letter). -/
def isLowerAZ (c : Char) : Bool := 'a' ≤ c && c ≤ 'z'

/-- `[0-9]` (ASCII digit). -/
def isDigit09 (c : Char) : Bool := '0' ≤ c && c ≤ '9'

/-- `[a-z0-9]` — the alphanumerics of the regexes on lines 125–126. -/
def isAlnumL (c : Char) : Bool := isLowerAZ c || isDigit09 c

/-- `[a-z0-9-]` — the character class kept by `re.sub('[^a-z0-9-]+', '-', s)`. -/
def isSlugChar (c : Char) : Bool := isAlnumL c || c == '-'

/-- ASCII model of Python `str.lower` applied per character.  Non-ASCII
letters are not lowercased here; every non-`[a-z0-9-]` character (lowercased
or not) is replaced by `-` in the next step, so the slug is unaffected. -/
def lowerChar (c : Char) : Char :=
  if 'A' ≤ c && c ≤ 'Z' then Char.ofNat (c.toNat + 32) else c

/-! ## First substitution: `re.sub('[^a-z0-9-]+', '-', s)`

Replaces every maximal run of characters outside `[a-z0-9-]` by a single
`-`.  `collapseAux inRun s` scans `s`; the flag records whether the previous
character was part of such a run (in which case the `-` was already
emitted). -/

def collapseAux : Bool → List Char → List Char
  | _, [] => []
  | inRun, c :: rest =>
    if isSlugChar c then c :: collapseAux false rest
    else if inRun then collapseAux true rest
    else '-' :: collapseAux true rest

/-- `re.sub('[^a-z0-9-]+', '-', s)` (line 125). -/
def collapse (s : List Char) : List Char := collapseAux false s

/-! ## Second substitution: `re.sub('^-*([a-z0-9-]+[a-z0-9])-*$', '\1', s)`

The pattern is anchored at both ends, so `re.sub` either rewrites the whole
string to the captured group or leaves it unchanged.  We model the
backtracking engine: the leading `-*` is greedy (tries the maximal run of
`-`, gives characters back one at a time), and inside the group
`[a-z0-9-]+` is greedy, so for a fixed start the group length is tried from
the longest downwards. -/

/-- Number of leading `-` characters (maximal text the leading `-*` can take). -/
def leadHyphens : List Char → Nat
  | [] => 0
  | c :: rest => if c = '-' then leadHyphens rest + 1 else 0

/-- Does the last character exist and lie in `[a-z0-9]`? -/
def lastIsAlnum (l : List Char) : Bool :=
  match l.getLast? with
  | some c => isAlnumL c
  | none => false

/-- One attempt of the anchored pattern: `-*` consumes `a` characters, the
group `([a-z0-9-]+[a-z0-9])` consumes the next `g` characters, the trailing
`-*$` must consume the rest.  Returns the captured group on success. -/
def checkSplit (s : List Char) (a g : Nat) : Option (List Char) :=
  let A := s.take a
  let G := (s.drop a).take g
  let B := (s.drop a).drop g
  if 2 ≤ g && G.length == g && A.all (fun c => c == '-') &&
      G.all isSlugChar && lastIsAlnum G && B.all (fun c => c == '-')
  then some G else none

/-- Greedy group search for a fixed start `a`: try group length `g`, then
`g-1`, … down to `2` (the group matches at least two characters). -/
def tryG (s : List Char) (a : Nat) : Nat → Option (List Char)
  | 0 => none
  | 1 => none
  | g + 2 =>
    match checkSplit s a (g + 2) with
    | some G => some G
    | none => tryG s a (g + 1)

/-- Greedy backtracking over the leading `-*`: try start `a` (group length
greedy from all the remaining text), then `a-1`, … down to `0`. -/
def tryFrom (s : List Char) : Nat → Option (List Char)
  | 0 => tryG s 0 s.length
  | a + 1 =>
    match tryG s (a + 1) ((s.drop (a + 1)).length) with
    | some G => some G
    | none => tryFrom s a

/-- `re.sub('^-*([a-z0-9-]+[a-z0-9])-*$', '\1', s)` (line 126): if the
anchored pattern matches, the string is replaced by the captured group,
otherwise it is returned unchanged. -/
def reSub2 (s : List Char) : List Char :=
  match tryFrom s (leadHyphens s) with
  | some G => G
  | none => s

/-- The branch slugifier, lines 123–126 of the source:
`CI_COMMIT_REF_SLUG = data[...]['source_branch'].lower()[:63]` followed by
the two regex substitutions. -/
def slugify (branch : String) : String :=
  String.mk (reSub2 (collapse ((branch.toList.map lowerChar).take 63)))

/-! Concrete sanity checks of the embedding: -/
example : slugify "Feature/ABC_123!!" = "feature-abc-123" := by decide
example : slugify "-a-" = "-a" := by decide
example : slugify "a!" = "a-" := by decide
example : slugify "---" = "---" := by decide
example : slugify "--ab--" = "ab" := by decide
example : slugify "x--" = "x--" := by decide
example : slugify "" = "" := by decide

/-! ## Python `%`-formatting with a mapping (template substitution)

`get_image_delete_list` evaluates `template % attributes` where
`attributes` is a dict.  We model the mapping-key directives `%(key)s` and
the escape `%%`; an unknown key (Python `KeyError`) or a directive outside
this fragment yields `none` (an uncaught exception in the program). -/

/-- Scanner state of the `%`-formatter: in plain text, just after `%`,
collecting a mapping key inside `%(…`, or just after the closing `)`. -/
inductive FmtState where
  | plain
  | percent
  | key (acc : List Char)
  | close (key : List Char)

/-- Character-by-character interpreter of `t % mapping`. -/
def pyFormatAux (lookup : String → Option String) : FmtState → List Char → Option (List Char)
  | .plain, [] => some []
  | .plain, '%' :: rest => pyFormatAux lookup .percent rest
  | .plain, c :: rest => (pyFormatAux lookup .plain rest).map (fun t => c :: t)
  | .percent, '(' :: rest => pyFormatAux lookup (.key []) rest
  | .percent, '%' :: rest => (pyFormatAux lookup .plain rest).map (fun t => '%' :: t)
  | .percent, _ => none
  | .key acc, ')' :: rest => pyFormatAux lookup (.close acc) rest
  | .key acc, c :: rest => pyFormatAux lookup (.key (acc ++ [c])) rest
  | .key _, [] => none
  | .close key, 's' :: rest =>
    match lookup (String.mk key) with
    | some v => (pyFormatAux lookup .plain rest).map (fun t => v.toList ++ t)
    | none => none
  | .close _, _ => none

/-- `pyFormat lookup t` interprets `t % mapping` where `lookup` is the
mapping.  `none` models an exception escaping the formatting. -/
def pyFormat (lookup : String → Option String) (t : List Char) : Option (List Char) :=
  pyFormatAux lookup .plain t

/-- Python `str.split(',')` on the template string (line 133):
`"".split(',') == ['']`, separators are single commas. -/
def splitComma : List Char → List (List Char)
  | [] => [[]]
  | ',' :: rest => [] :: splitComma rest
  | c :: rest =>
    match splitComma rest with
    | [] => [[c]]
    | p :: ps => (c :: p) :: ps

/-- `get_image_delete_list` (lines 111–135), as a function of the resolved
inputs: `default_template` is `config.get('IMAGE_NAME_TEMPLATE',
'%(project_path)s/%(branch)s')`; `project_attr = some t` models a
configured `IMAGE_NAME_PROJECT_ATTRIBUTE` whose custom-attribute lookup
succeeded with value `t`, `none` the unconfigured / not-found fallback
(lines 113–121).  The branch slug is substituted for `%(branch)s` and the
source project path for `%(project_path)s` in each comma-separated piece of
the template.  `none` models an exception escaping template formatting. -/
def get_image_delete_list (default_template : String) (project_attr : Option String)
    (source_branch path_with_namespace : String) : Option (List String) :=
  let image_template := match project_attr with
    | some t => t
    | none => default_template
  let branch := slugify source_branch
  let lookup : String → Option String := fun k =>
    if k = "branch" then some branch
    else if k = "project_path" then some path_with_namespace
    else none
  (splitComma image_template.toList).mapM fun t => (pyFormat lookup t).map String.mk

/-- The default of `config.get('IMAGE_NAME_TEMPLATE', ...)` (line 112). -/
def defaultTemplate : String := "%(project_path)s/%(branch)s"

/-! ## Registry client and the cleanup loop -/

/-- Oracle model of the `GitlabRegistryClient` instance `client`.
`get_tags` returns the decoded JSON of the tag-list endpoint:
`none` = response object lacks a `"tags"` key, `some none` = `"tags": null`,
`some (some ts)` = `"tags": [...]`.  `get_digest` and `delete_image` return
`Except.error detail` to model a raised `requests.exceptions.HTTPError`
whose text is `detail`. -/
structure Client where
  get_tags : String → Option (Option (List String))
  get_digest : String → String → Except String (Option String)
  delete_image : String → String → Except String Bool

/-- One element of the `messages` list built by `cleanup`: either a full
per-tag dict `{'image', 'tag', 'message', 'code'}` or the bare
`{'message': ...}` dict of the tags-not-found abort. -/
inductive Outcome where
  | tagOutcome (image tag message : String) (code : Nat)
  | msgOnly (message : String)
deriving DecidableEq, Repr

/-- `delete_image(image, tag)` (lines 138–151): look up the digest, then
delete; `Except.error` propagates a `requests` HTTP error raised by either
client call. -/
def delete_image (c : Client) (image tag : String) : Except String (String × Nat) :=
  match c.get_digest image tag with
  | .error e => .error e
  | .ok none => .ok ("Image not found", 404)
  | .ok (some _) =>
    match c.delete_image image tag with
    | .error e => .error e
    | .ok true => .ok ("Image deleted", 200)
    | .ok false => .ok ("Image not deleted", 202)

/-- The inner `for tag in tags["tags"]` loop of `cleanup` (lines 171–184),
threading the running `status` and `messages`. -/
def tagLoop (c : Client) (image : String) :
    List String → Nat → List Outcome → Nat × List Outcome
  | [], status, messages => (status, messages)
  | tag :: rest, status, messages =>
    match delete_image c image tag with
    | .ok (message, code) =>
      tagLoop c image rest (if code ≠ 200 then code else status)
        (messages ++ [.tagOutcome image tag message code])
    | .error _ =>
      tagLoop c image rest 500
        (messages ++ [.tagOutcome image tag "Underlying HTTP error. Details not disclosed." 500])

/-- The outer `for image in ...` loop of `cleanup` (lines 158–186): a
response lacking a `tags` key, or with `tags` null, returns at once with a
single bare message appended; otherwise the tag loop runs and iteration
continues. -/
def cleanupLoop (c : Client) : List String → Nat → List Outcome → Nat × List Outcome
  | [], status, messages => (status, messages)
  | image :: rest, status, messages =>
    match c.get_tags image with
    | none => (status, messages ++ [.msgOnly "Tags not found"])
    | some none => (status, messages ++ [.msgOnly "Tags not found"])
    | some (some tags) =>
      let r := tagLoop c image tags status messages
      cleanupLoop c rest r.1 r.2

/-- `cleanup(project, data)` (lines 154–186) applied to an already-resolved
image list: returns the HTTP status and the JSON `messages` array of the
response. -/
def cleanup (c : Client) (images : List String) : Nat × List Outcome :=
  cleanupLoop c images 200 []

/-! ## Configuration secrets -/

/-- `Config.get_secret` (lines 38–45): if `<name>_FILE` is set in the
environment, the secret is the first line of that file (`fileFirstLine`
models the successful file read); otherwise it is the environment value of
`<name>` itself, possibly absent. -/
def get_secret (env : String → Option String) (fileFirstLine : String → String)
    (name : String) : Option String :=
  match env (name ++ "_FILE") with
  | some secret_file => some (fileFirstLine secret_file)
  | none => env name

/-! ## The webhook gate `validate`

The JSON body is modelled by nested records of `Option` fields: `none`
means the dictionary lacks that key.  Reading an absent key raises
`KeyError` in Python, which no handler catches, so the server answers with
an error page instead of the deliberate 204; `HookResponse.error` models
any such uncaught exception. -/

/-- `data['object_attributes']['source']`. -/
structure SourceData where
  path_with_namespace : Option String
deriving DecidableEq, Repr

/-- `data['object_attributes']`. -/
structure ObjectAttributesData where
  state : Option String
  source : Option SourceData
  source_branch : Option String
deriving DecidableEq, Repr

/-- `data['project']`. -/
structure ProjectData where
  id : Option Nat
deriving DecidableEq, Repr

/-- The parsed JSON body `data = request.json`. -/
structure BodyData where
  event_type : Option String
  object_attributes : Option ObjectAttributesData
  project : Option ProjectData
deriving DecidableEq, Repr

/-- The response of the `POST /` handler. -/
inductive HookResponse where
  /-- The shared `NoContentResponse` (204, empty body). -/
  | noContent
  /-- `JsonResponse(messages, status)`. -/
  | json (status : Nat) (messages : List Outcome)
  /-- An uncaught exception (`KeyError`, JSON parse failure, …): the web
  framework produces an error page, not a 204. -/
  | error
deriving DecidableEq, Repr

/-- The `validate` handler (lines 85–108) composed with `cleanup`:

* `hook_token` is the startup value `config.get('HOOK_TOKEN')`;
* `reqToken`/`reqEvent` are `request.get_header(...)` (`none` = absent);
* `body = none` models a request body that is not a JSON object
  (`request.json` then is `None` or raises — either way the handler dies
  with an uncaught exception);
* `registry_enabled pid` models
  `gl.projects.get(pid).attributes['container_registry_enabled']`;
* the remaining arguments feed `get_image_delete_list` and `cleanup`.

Field accesses follow the source order, including the short-circuit of
`data['event_type'] != 'merge_request' or data['object_attributes']['state']
!= 'merged'` (line 96) and the tuple-building access of line 99. -/
def validate (hook_token reqToken reqEvent : Option String) (body : Option BodyData)
    (registry_enabled : Nat → Bool) (c : Client)
    (default_template : String) (project_attr : Option String) : HookResponse :=
  if reqToken ≠ hook_token then .noContent
  else if ¬ (reqEvent = some "Merge Request Hook" ∨ reqEvent = some "System Hook") then
    .noContent
  else match body with
  | none => .error
  | some data =>
    match data.event_type with
    | none => .noContent
    | some event_type =>
      if event_type ≠ "merge_request" then .noContent
      else match data.object_attributes with
      | none => .error
      | some oa =>
        match oa.state with
        | none => .error
        | some state =>
          if state ≠ "merged" then .noContent
          else match oa.source with
          | none => .error
          | some source =>
            match source.path_with_namespace with
            | none => .error
            | some path_with_namespace =>
              match data.project with
              | none => .error
              | some project =>
                match project.id with
                | none => .error
                | some project_id =>
                  if ¬ registry_enabled project_id then .noContent
                  else match oa.source_branch with
                  | none => .error
                  | some source_branch =>
                    match get_image_delete_list default_template project_attr
                        source_branch path_with_namespace with
                    | none => .error
                    | some images =>
                      let r := cleanup c images
                      .json r.1 r.2

/-! ## Helper notions for stating and proving the claims -/

/-- The outcome `cleanup` records for one `(image, tag)` pair: the returned
message/code of `delete_image`, or the disclosed-nothing 500 outcome when a
`requests` HTTP error was raised. -/
def outcomeFor (c : Client) (image tag : String) : Outcome :=
  match delete_image c image tag with
  | .ok (m, code) => .tagOutcome image tag m code
  | .error _ => .tagOutcome image tag "Underlying HTTP error. Details not disclosed." 500

/-- The status code `cleanup` sees for one `(image, tag)` pair. -/
def codeFor (c : Client) (image tag : String) : Nat :=
  match delete_image c image tag with
  | .ok (_, code) => code
  | .error _ => 500

/-- One step of the status aggregation: `if code != 200: status = code`. -/
def statusStep (status code : Nat) : Nat := if code ≠ 200 then code else status

/-- The running aggregate after seeing the codes `ks` starting from `s`. -/
def statusFold (s : Nat) (ks : List Nat) : Nat := ks.foldl statusStep s

/-- The spec's description of the aggregate: the last non-200 code, else 200. -/
def lastNon200 (ks : List Nat) : Nat :=
  ((ks.filter (fun k => k ≠ 200)).getLast?).getD 200

/-- The codes carried by a message list (bare messages carry none). -/
def outcomeCodes (l : List Outcome) : List Nat :=
  l.filterMap fun o => match o with
    | .tagOutcome _ _ _ code => some code
    | .msgOnly _ => none

/-- Is this a bare `{'message': ...}` object (no image/tag fields)? -/
def isMsgOnly : Outcome → Bool
  | .msgOnly _ => true
  | .tagOutcome _ _ _ _ => false

/-! ### The inner tag loop, in closed form -/

theorem tagLoop_spec (c : Client) (image : String) :
    ∀ (tags : List String) (status : Nat) (msgs : List Outcome),
    tagLoop c image tags status msgs =
      (statusFold status (tags.map (codeFor c image)),
       msgs ++ tags.map (outcomeFor c image)) := by
  intro tags
  induction tags with
  | nil => intro status msgs; simp [tagLoop, statusFold]
  | cons tag rest ih =>
    intro status msgs
    cases h : delete_image c image tag with
    | ok mc =>
      obtain ⟨m, code⟩ := mc
      simp only [tagLoop, h]
      rw [ih]
      simp [outcomeFor, codeFor, h, statusFold, statusStep]
    | error e =>
      simp only [tagLoop, h]
      rw [ih]
      simp [outcomeFor, codeFor, h, statusFold, statusStep]

theorem cons_getLast?_getD {α : Type} (k s : α) (l : List α) :
    ((k :: l).getLast?).getD s = (l.getLast?).getD k := by
  rw [← List.getLastD_eq_getLast?, ← List.getLastD_eq_getLast?, List.getLastD_cons]

theorem statusFold_eq_last (s : Nat) (ks : List Nat) :
    statusFold s ks = ((ks.filter (fun k => k ≠ 200)).getLast?).getD s := by
  induction ks generalizing s with
  | nil => simp [statusFold]
  | cons k rest ih =>
    have h1 : statusFold s (k :: rest) = statusFold (statusStep s k) rest := rfl
    rw [h1, ih]
    by_cases hk : k = 200
    · subst hk
      simp [statusStep, List.filter_cons]
    · rw [List.filter_cons]
      simp only [hk, decide_not, decide_False, Bool.not_false, if_true]
      rw [cons_getLast?_getD]
      simp [statusStep, hk]

theorem statusFold_append (s : Nat) (ks ls : List Nat) :
    statusFold s (ks ++ ls) = statusFold (statusFold s ks) ls := by
  simp [statusFold, List.foldl_append]

/-! ### The outer loop, in closed form -/

/-- The messages the outer loop appends from `images` on: per-tag outcomes
image by image, cut short by the first tags-not-found abort. -/
def cleanupMsgs (c : Client) : List String → List Outcome
  | [] => []
  | image :: rest =>
    match c.get_tags image with
    | none => [.msgOnly "Tags not found"]
    | some none => [.msgOnly "Tags not found"]
    | some (some tags) => tags.map (outcomeFor c image) ++ cleanupMsgs c rest

/-- The final aggregate status for `images`, starting from `status`. -/
def cleanupStatus (c : Client) : List String → Nat → Nat
  | [], status => status
  | image :: rest, status =>
    match c.get_tags image with
    | none => status
    | some none => status
    | some (some tags) =>
      cleanupStatus c rest (statusFold status (tags.map (codeFor c image)))

theorem cleanupLoop_spec (c : Client) :
    ∀ (images : List String) (status : Nat) (msgs : List Outcome),
    cleanupLoop c images status msgs =
      (cleanupStatus c images status, msgs ++ cleanupMsgs c images) := by
  intro images
  induction images with
  | nil => intro status msgs; simp [cleanupLoop, cleanupStatus, cleanupMsgs]
  | cons image rest ih =>
    intro status msgs
    cases h : c.get_tags image with
    | none => simp [cleanupLoop, cleanupStatus, cleanupMsgs, h]
    | some o =>
      cases o with
      | none => simp [cleanupLoop, cleanupStatus, cleanupMsgs, h]
      | some tags =>
        simp only [cleanupLoop, h, cleanupStatus, cleanupMsgs]
        rw [tagLoop_spec, ih]
        simp

theorem cleanup_spec (c : Client) (images : List String) :
    cleanup c images = (cleanupStatus c images 200, cleanupMsgs c images) := by
  rw [cleanup, cleanupLoop_spec]
  simp

theorem outcomeCodes_append (l1 l2 : List Outcome) :
    outcomeCodes (l1 ++ l2) = outcomeCodes l1 ++ outcomeCodes l2 := by
  simp [outcomeCodes]

theorem outcomeCodes_map_outcomeFor (c : Client) (image : String) (tags : List String) :
    outcomeCodes (tags.map (outcomeFor c image)) = tags.map (codeFor c image) := by
  induction tags with
  | nil => rfl
  | cons t ts ih =>
    simp only [List.map_cons, outcomeCodes, List.filterMap_cons] at ih ⊢
    cases h : delete_image c image t with
    | ok mc => obtain ⟨m, code⟩ := mc; simp [outcomeFor, codeFor, h, ih]
    | error e => simp [outcomeFor, codeFor, h, ih]

theorem cleanupStatus_eq_statusFold (c : Client) :
    ∀ (images : List String) (status : Nat),
    cleanupStatus c images status = statusFold status (outcomeCodes (cleanupMsgs c images)) := by
  intro images
  induction images with
  | nil => intro status; simp [cleanupStatus, cleanupMsgs, outcomeCodes, statusFold]
  | cons image rest ih =>
    intro status
    cases h : c.get_tags image with
    | none => simp [cleanupStatus, cleanupMsgs, h, outcomeCodes, statusFold]
    | some o =>
      cases o with
      | none => simp [cleanupStatus, cleanupMsgs, h, outcomeCodes, statusFold]
      | some tags =>
        simp only [cleanupStatus, cleanupMsgs, h]
        rw [ih, outcomeCodes_append, outcomeCodes_map_outcomeFor, statusFold_append]

/-! ### Behaviour on a good prefix and at a tags-not-found image -/

/-- `get_tags` gave a real list for every image of `l`. -/
def GoodTags (c : Client) (l : List String) : Prop :=
  ∀ img ∈ l, ∃ ts, c.get_tags img = some (some ts)

theorem cleanupMsgs_append_good (c : Client) :
    ∀ (pre rest : List String), GoodTags c pre →
    cleanupMsgs c (pre ++ rest) = cleanupMsgs c pre ++ cleanupMsgs c rest := by
  intro pre
  induction pre with
  | nil => intro rest _; simp [cleanupMsgs]
  | cons i pre ih =>
    intro rest hg
    obtain ⟨ts, hts⟩ := hg i (by simp)
    have hg2 : GoodTags c pre := fun img hm => hg img (by simp [hm])
    simp only [List.cons_append, cleanupMsgs, hts, List.append_eq]
    rw [ih rest hg2]
    simp

theorem cleanupStatus_append_good (c : Client) :
    ∀ (pre rest : List String) (status : Nat), GoodTags c pre →
    cleanupStatus c (pre ++ rest) status =
      cleanupStatus c rest (cleanupStatus c pre status) := by
  intro pre
  induction pre with
  | nil => intro rest status _; simp [cleanupStatus]
  | cons i pre ih =>
    intro rest status hg
    obtain ⟨ts, hts⟩ := hg i (by simp)
    have hg2 : GoodTags c pre := fun img hm => hg img (by simp [hm])
    simp only [List.cons_append, cleanupStatus, hts, List.append_eq]
    rw [ih rest _ hg2]

theorem cleanupMsgs_bad (c : Client) (bad : String) (rest : List String)
    (hbad : c.get_tags bad = none ∨ c.get_tags bad = some none) :
    cleanupMsgs c (bad :: rest) = [.msgOnly "Tags not found"] := by
  rcases hbad with h | h <;> simp [cleanupMsgs, h]

theorem cleanupStatus_bad (c : Client) (bad : String) (rest : List String) (status : Nat)
    (hbad : c.get_tags bad = none ∨ c.get_tags bad = some none) :
    cleanupStatus c (bad :: rest) status = status := by
  rcases hbad with h | h <;> simp [cleanupStatus, h]

theorem cleanupMsgs_good_no_msgOnly (c : Client) :
    ∀ (pre : List String), GoodTags c pre →
    ∀ o ∈ cleanupMsgs c pre, isMsgOnly o = false := by
  intro pre
  induction pre with
  | nil => intro _ o ho; simp [cleanupMsgs] at ho
  | cons i pre ih =>
    intro hg o ho
    obtain ⟨ts, hts⟩ := hg i (by simp)
    have hg2 : GoodTags c pre := fun img hm => hg img (by simp [hm])
    simp only [cleanupMsgs, hts, List.mem_append] at ho
    rcases ho with ho | ho
    · obtain ⟨t, _, rfl⟩ := List.mem_map.mp ho
      cases h : delete_image c i t with
      | ok mc => obtain ⟨m, code⟩ := mc; simp [outcomeFor, h, isMsgOnly]
      | error e => simp [outcomeFor, h, isMsgOnly]
    · exact ih hg2 o ho

/-! ## Claim theorems: the cleanup orchestration -/

/-- **C4.** The aggregate status of a cleanup run starts at 200 and each
non-200 tag outcome overwrites it, so the final status is the code of the
last non-200 outcome (200 if none).  Concretely, for an image with tags
`["v1","v2"]` where `v1` deletes successfully (200) and the digest lookup
of `v2` fails (404), the status is 404 and the outcomes keep tag order. -/
theorem C4_aggregate_last_non_200 :
    (∀ (c : Client) (images : List String),
      (cleanup c images).1 = lastNon200 (outcomeCodes (cleanup c images).2)) ∧
    cleanup
      (Client.mk (fun i => if i = "img" then some (some ["v1", "v2"]) else none)
        (fun _ t => if t = "v1" then .ok (some "sha") else .ok none)
        (fun _ _ => .ok true))
      ["img"]
      = (404, [.tagOutcome "img" "v1" "Image deleted" 200,
               .tagOutcome "img" "v2" "Image not found" 404]) := by
  constructor
  · intro c images
    rw [cleanup_spec, cleanupStatus_eq_statusFold, statusFold_eq_last]
    rfl
  · decide

/-- **C3.** When `get_tags` answers without a `tags` field (or with `tags`
null) for an image, the run stops there: the response is the same whatever
images remained, the bare "Tags not found" message is appended after the
earlier outcomes, and it is the only image/tag-less outcome object of the
response. -/
theorem C3_tags_not_found_abort (c : Client) (pre post : List String) (bad : String)
    (hbad : c.get_tags bad = none ∨ c.get_tags bad = some none)
    (hpre : GoodTags c pre) :
    cleanup c (pre ++ bad :: post) = cleanup c (pre ++ [bad]) ∧
    (cleanup c (pre ++ bad :: post)).2 = (cleanup c pre).2 ++ [.msgOnly "Tags not found"] ∧
    (cleanup c (pre ++ bad :: post)).2.filter isMsgOnly = [.msgOnly "Tags not found"] := by
  have hm : cleanupMsgs c (pre ++ bad :: post) = cleanupMsgs c pre ++ [.msgOnly "Tags not found"] := by
    rw [cleanupMsgs_append_good c pre _ hpre, cleanupMsgs_bad c bad post hbad]
  have hm2 : cleanupMsgs c (pre ++ [bad]) = cleanupMsgs c pre ++ [.msgOnly "Tags not found"] := by
    rw [cleanupMsgs_append_good c pre _ hpre, cleanupMsgs_bad c bad [] hbad]
  have hs : cleanupStatus c (pre ++ bad :: post) 200 = cleanupStatus c pre 200 := by
    rw [cleanupStatus_append_good c pre _ _ hpre, cleanupStatus_bad c bad post _ hbad]
  have hs2 : cleanupStatus c (pre ++ [bad]) 200 = cleanupStatus c pre 200 := by
    rw [cleanupStatus_append_good c pre _ _ hpre, cleanupStatus_bad c bad [] _ hbad]
  refine ⟨?_, ?_, ?_⟩
  · rw [cleanup_spec, cleanup_spec, hm, hm2, hs, hs2]
  · rw [cleanup_spec, cleanup_spec, hm]
  · rw [cleanup_spec, hm]
    simp only [List.filter_append]
    rw [List.filter_eq_nil_iff.mpr ?good]
    · simp [isMsgOnly]
    · intro o ho
      simp [cleanupMsgs_good_no_msgOnly c pre hpre o ho]

/-- Concrete registry used to instantiate `C3_tags_not_found_abort`. -/
def wclientC3 : Client where
  get_tags := fun i =>
    if i = "i1" then some (some ["v1"]) else if i = "i2" then none else some (some [])
  get_digest := fun _ _ => .ok none
  delete_image := fun _ _ => .ok true

theorem C3_tags_not_found_abort_witness :
    cleanup wclientC3 (["i1"] ++ "i2" :: ["i3"]) = cleanup wclientC3 (["i1"] ++ ["i2"]) ∧
    (cleanup wclientC3 (["i1"] ++ "i2" :: ["i3"])).2 =
      (cleanup wclientC3 ["i1"]).2 ++ [.msgOnly "Tags not found"] ∧
    (cleanup wclientC3 (["i1"] ++ "i2" :: ["i3"])).2.filter isMsgOnly =
      [.msgOnly "Tags not found"] :=
  C3_tags_not_found_abort wclientC3 ["i1"] ["i3"] "i2" (Or.inl (by decide))
    (by
      intro img him
      rw [List.mem_singleton] at him
      subst him
      exact ⟨["v1"], by decide⟩)

/-- **C10.** When the tags-not-found abort triggers on a later image, the
response keeps all earlier outcomes followed by the single "Tags not found"
message, and its status is the aggregate over those earlier outcomes, not a
reset 200. -/
theorem C10_abort_keeps_prefix_status (c : Client) (pre post : List String) (bad : String)
    (hbad : c.get_tags bad = none ∨ c.get_tags bad = some none)
    (hpre : GoodTags c pre) :
    (cleanup c (pre ++ bad :: post)).2 = (cleanup c pre).2 ++ [.msgOnly "Tags not found"] ∧
    (cleanup c (pre ++ bad :: post)).1 = (cleanup c pre).1 := by
  constructor
  · rw [cleanup_spec, cleanup_spec, cleanupMsgs_append_good c pre _ hpre,
      cleanupMsgs_bad c bad post hbad]
  · rw [cleanup_spec, cleanup_spec]
    simp only
    rw [cleanupStatus_append_good c pre _ _ hpre, cleanupStatus_bad c bad post _ hbad]

/-- Concrete registry used to instantiate `C10_abort_keeps_prefix_status`:
the first image yields a 404 outcome, the second aborts. -/
def wclientC10 : Client where
  get_tags := fun i =>
    if i = "i1" then some (some ["v1"]) else if i = "i2" then some none else some (some [])
  get_digest := fun _ _ => .ok none
  delete_image := fun _ _ => .ok true

theorem C10_abort_keeps_prefix_status_witness :
    ((cleanup wclientC10 (["i1"] ++ "i2" :: ["i3"])).2 =
      (cleanup wclientC10 ["i1"]).2 ++ [.msgOnly "Tags not found"] ∧
     (cleanup wclientC10 (["i1"] ++ "i2" :: ["i3"])).1 = (cleanup wclientC10 ["i1"]).1) ∧
    (cleanup wclientC10 ["i1"]).1 = 404 :=
  ⟨C10_abort_keeps_prefix_status wclientC10 ["i1"] ["i3"] "i2" (Or.inr (by decide))
    (by
      intro img him
      rw [List.mem_singleton] at him
      subst him
      exact ⟨["v1"], by decide⟩),
   by decide⟩

/-! ### C5: transport errors are caught per tag and their text is hidden -/

/-- Two client-call results that agree except possibly in the detail text
of a raised HTTP error. -/
def sameUpToErrorDetail {α : Type} : Except String α → Except String α → Prop
  | .ok a, .ok b => a = b
  | .error _, .error _ => True
  | _, _ => False

theorem delete_image_congr (c c2 : Client)
    (h1 : ∀ i t, sameUpToErrorDetail (c.get_digest i t) (c2.get_digest i t))
    (h2 : ∀ i t, sameUpToErrorDetail (c.delete_image i t) (c2.delete_image i t))
    (i t : String) :
    sameUpToErrorDetail (delete_image c i t) (delete_image c2 i t) := by
  have hd := h1 i t
  cases hx : c.get_digest i t with
  | error e =>
    cases hy : c2.get_digest i t with
    | error e2 => simp [delete_image, hx, hy, sameUpToErrorDetail]
    | ok b => rw [hx, hy] at hd; simp [sameUpToErrorDetail] at hd
  | ok a =>
    cases hy : c2.get_digest i t with
    | error e2 => rw [hx, hy] at hd; simp [sameUpToErrorDetail] at hd
    | ok b =>
      rw [hx, hy] at hd
      have hab : a = b := hd
      subst hab
      cases a with
      | none => simp [delete_image, hx, hy, sameUpToErrorDetail]
      | some dg =>
        have he := h2 i t
        cases hx2 : c.delete_image i t with
        | error e =>
          cases hy2 : c2.delete_image i t with
          | error e2 => simp [delete_image, hx, hy, hx2, hy2, sameUpToErrorDetail]
          | ok r2 => rw [hx2, hy2] at he; simp [sameUpToErrorDetail] at he
        | ok r =>
          cases hy2 : c2.delete_image i t with
          | error e2 => rw [hx2, hy2] at he; simp [sameUpToErrorDetail] at he
          | ok r2 =>
            rw [hx2, hy2] at he
            have hr : r = r2 := he
            subst hr
            cases r <;> simp [delete_image, hx, hy, hx2, hy2, sameUpToErrorDetail]

theorem outcomeFor_congr (c c2 : Client) (i t : String)
    (h : sameUpToErrorDetail (delete_image c i t) (delete_image c2 i t)) :
    outcomeFor c i t = outcomeFor c2 i t ∧ codeFor c i t = codeFor c2 i t := by
  cases hx : delete_image c i t with
  | ok mc =>
    cases hy : delete_image c2 i t with
    | ok mc2 =>
      rw [hx, hy] at h
      have hm : mc = mc2 := h
      subst hm
      simp [outcomeFor, codeFor, hx, hy]
    | error e => rw [hx, hy] at h; simp [sameUpToErrorDetail] at h
  | error e =>
    cases hy : delete_image c2 i t with
    | ok mc2 => rw [hx, hy] at h; simp [sameUpToErrorDetail] at h
    | error e2 => simp [outcomeFor, codeFor, hx, hy]

theorem cleanup_congr (c c2 : Client)
    (h1 : ∀ i t, sameUpToErrorDetail (c.get_digest i t) (c2.get_digest i t))
    (h2 : ∀ i t, sameUpToErrorDetail (c.delete_image i t) (c2.delete_image i t))
    (h3 : c.get_tags = c2.get_tags) :
    ∀ images : List String, cleanup c images = cleanup c2 images := by
  have hof : ∀ i, outcomeFor c i = outcomeFor c2 i := fun i =>
    funext fun t => (outcomeFor_congr c c2 i t (delete_image_congr c c2 h1 h2 i t)).1
  have hcf : ∀ i, codeFor c i = codeFor c2 i := fun i =>
    funext fun t => (outcomeFor_congr c c2 i t (delete_image_congr c c2 h1 h2 i t)).2
  have hmsgs : ∀ images, cleanupMsgs c images = cleanupMsgs c2 images := by
    intro images
    induction images with
    | nil => rfl
    | cons i rest ih =>
      simp only [cleanupMsgs, ← h3]
      cases c.get_tags i with
      | none => rfl
      | some o =>
        cases o with
        | none => rfl
        | some tags => rw [hof i, ih]
  have hstat : ∀ images status, cleanupStatus c images status = cleanupStatus c2 images status := by
    intro images
    induction images with
    | nil => intro status; rfl
    | cons i rest ih =>
      intro status
      simp only [cleanupStatus, ← h3]
      cases c.get_tags i with
      | none => rfl
      | some o =>
        cases o with
        | none => rfl
        | some tags => rw [hcf i]; exact ih _
  intro images
  rw [cleanup_spec, cleanup_spec, hmsgs, hstat]

/-- **C5.** A transport-level HTTP error while deleting one tag is caught:
that tag's outcome is the fixed `("Underlying HTTP error. Details not
disclosed.", 500)`, every other tag still gets its outcome in order, and
the response is unchanged if the error's detail text changes (so the detail
never reaches the response body). -/
theorem C5_http_error_isolated (c : Client) (image tag : String) (tags : List String)
    (e : String) (hmem : tag ∈ tags) (herr : delete_image c image tag = .error e) :
    (tagLoop c image tags 200 []).2 = tags.map (outcomeFor c image) ∧
    outcomeFor c image tag =
      .tagOutcome image tag "Underlying HTTP error. Details not disclosed." 500 ∧
    ∀ c2 : Client,
      (∀ i t, sameUpToErrorDetail (c.get_digest i t) (c2.get_digest i t)) →
      (∀ i t, sameUpToErrorDetail (c.delete_image i t) (c2.delete_image i t)) →
      c.get_tags = c2.get_tags →
      ∀ images : List String, cleanup c images = cleanup c2 images := by
  refine ⟨?_, ?_, fun c2 h1 h2 h3 => cleanup_congr c c2 h1 h2 h3⟩
  · rw [tagLoop_spec]; simp
  · simp [outcomeFor, herr]

/-- Concrete registry used to instantiate `C5_http_error_isolated`: the
digest lookup of `v1` raises, `v2` deletes fine. -/
def wclientC5 : Client where
  get_tags := fun _ => some (some ["v1", "v2"])
  get_digest := fun _ t => if t = "v1" then .error "secret detail" else .ok (some "sha")
  delete_image := fun _ _ => .ok true

theorem C5_http_error_isolated_witness :
    ("v1" ∈ ["v1", "v2"] ∧ delete_image wclientC5 "i" "v1" = .error "secret detail") ∧
    (tagLoop wclientC5 "i" ["v1", "v2"] 200 []).2 =
      ["v1", "v2"].map (outcomeFor wclientC5 "i") ∧
    outcomeFor wclientC5 "i" "v1" =
      .tagOutcome "i" "v1" "Underlying HTTP error. Details not disclosed." 500 :=
  ⟨⟨by decide, rfl⟩,
   (C5_http_error_isolated wclientC5 "i" "v1" ["v1", "v2"] "secret detail"
      (by decide) rfl).1,
   (C5_http_error_isolated wclientC5 "i" "v1" ["v1", "v2"] "secret detail"
      (by decide) rfl).2.1⟩

/-! ## Claim theorems: the webhook gate -/

/-- **C6.** A request whose `X-GITLAB-TOKEN` header differs from the
configured hook token gets the empty 204 response whatever the rest of the
request looks like — the body (even an unparseable one), the registry
flag, the client and the template are arbitrary and never consulted. -/
theorem C6_token_mismatch_always_204 (hook_token reqToken : Option String)
    (h : reqToken ≠ hook_token) (reqEvent : Option String) (body : Option BodyData)
    (reg : Nat → Bool) (c : Client) (tpl : String) (pa : Option String) :
    validate hook_token reqToken reqEvent body reg c tpl pa = .noContent := by
  simp [validate, h]

theorem C6_token_mismatch_always_204_witness :
    (none : Option String) ≠ some "t" ∧
    validate (some "t") none (some "Merge Request Hook") none (fun _ => true)
      (Client.mk (fun _ => none) (fun _ _ => .ok none) (fun _ _ => .ok false))
      defaultTemplate none = .noContent :=
  ⟨by decide,
   C6_token_mismatch_always_204 (some "t") none (by decide) (some "Merge Request Hook")
     none (fun _ => true)
     (Client.mk (fun _ => none) (fun _ _ => .ok none) (fun _ _ => .ok false))
     defaultTemplate none⟩

/-- **C9.** With no hook token configured (`HOOK_TOKEN` and
`HOOK_TOKEN_FILE` both unset, so `config.get('HOOK_TOKEN')` is `None`), a
request without the `X-GITLAB-TOKEN` header passes the token check —
`None == None` — and the gate behaves exactly as for a matching token, up
to full acceptance of a valid merged merge request. -/
theorem C9_unconfigured_token_accepts :
    (∀ fileFirstLine : String → String,
      get_secret (fun _ => none) fileFirstLine "HOOK_TOKEN" = none) ∧
    (∀ (s : String) (reqEvent : Option String) (body : Option BodyData)
        (reg : Nat → Bool) (c : Client) (tpl : String) (pa : Option String),
      validate none none reqEvent body reg c tpl pa =
        validate (some s) (some s) reqEvent body reg c tpl pa) ∧
    validate none none (some "Merge Request Hook")
      (some { event_type := some "merge_request",
              object_attributes := some { state := some "merged",
                                          source := some { path_with_namespace := some "grp/app" },
                                          source_branch := some "fix-1" },
              project := some { id := some 7 } })
      (fun _ => true)
      (Client.mk (fun _ => some (some [])) (fun _ _ => .ok none) (fun _ _ => .ok false))
      defaultTemplate none = .json 200 [] := by
  refine ⟨fun fileFirstLine => rfl, fun s reqEvent body reg c tpl pa => ?_, by decide⟩
  simp [validate]

/-- **C1 counterexample.**  A request that passes both header checks but
whose body lacks `object_attributes` (while `event_type` is
`"merge_request"`) makes the handler raise `KeyError`: the response is an
error, not the neutral 204 the claim promises. -/
theorem C1_counterexample :
    validate (some "t") (some "t") (some "Merge Request Hook")
      (some { event_type := some "merge_request", object_attributes := none, project := none })
      (fun _ => true)
      (Client.mk (fun _ => none) (fun _ _ => .ok none) (fun _ _ => .ok false))
      defaultTemplate none = .error ∧
    HookResponse.error ≠ HookResponse.noContent := by
  constructor
  · decide
  · decide

/-- **C1 (amended).**  Of the required body fields only a missing
`event_type` is handled with the neutral 204.  Once `event_type` equals
`"merge_request"`, a missing `object_attributes` or `object_attributes.state`
raises `KeyError` (an error response); once the state is `"merged"`, the
same holds for a missing `object_attributes.source`,
`source.path_with_namespace`, `project` or `project.id`. -/
theorem C1_missing_fields (tok : Option String) (hdr : Option String)
    (oa : Option ObjectAttributesData) (proj : Option ProjectData)
    (src : Option SourceData) (sb : Option String)
    (reg : Nat → Bool) (c : Client) (tpl : String) (pa : Option String)
    (hhdr : hdr = some "Merge Request Hook" ∨ hdr = some "System Hook") :
    validate tok tok hdr (some { event_type := none, object_attributes := oa, project := proj })
      reg c tpl pa = .noContent ∧
    validate tok tok hdr
      (some { event_type := some "merge_request", object_attributes := none, project := proj })
      reg c tpl pa = .error ∧
    validate tok tok hdr
      (some { event_type := some "merge_request",
              object_attributes := some { state := none, source := src, source_branch := sb },
              project := proj })
      reg c tpl pa = .error ∧
    validate tok tok hdr
      (some { event_type := some "merge_request",
              object_attributes := some { state := some "merged", source := none,
                                          source_branch := sb },
              project := proj })
      reg c tpl pa = .error ∧
    validate tok tok hdr
      (some { event_type := some "merge_request",
              object_attributes := some { state := some "merged",
                                          source := some { path_with_namespace := none },
                                          source_branch := sb },
              project := proj })
      reg c tpl pa = .error ∧
    validate tok tok hdr
      (some { event_type := some "merge_request",
              object_attributes := some { state := some "merged",
                                          source := some { path_with_namespace := some "p" },
                                          source_branch := sb },
              project := none })
      reg c tpl pa = .error ∧
    validate tok tok hdr
      (some { event_type := some "merge_request",
              object_attributes := some { state := some "merged",
                                          source := some { path_with_namespace := some "p" },
                                          source_branch := sb },
              project := some { id := none } })
      reg c tpl pa = .error := by
  rcases hhdr with h | h <;> subst h <;>
    exact ⟨by simp [validate], by simp [validate], by simp [validate], by simp [validate],
      by simp [validate], by simp [validate], by simp [validate]⟩

theorem C1_missing_fields_witness :
    ((some "Merge Request Hook" : Option String) = some "Merge Request Hook" ∨
      (some "Merge Request Hook" : Option String) = some "System Hook") ∧
    validate (some "t") (some "t") (some "Merge Request Hook")
      (some { event_type := none, object_attributes := none, project := none })
      (fun _ => true)
      (Client.mk (fun _ => none) (fun _ _ => .ok none) (fun _ _ => .ok false))
      defaultTemplate none = .noContent ∧
    validate (some "t") (some "t") (some "Merge Request Hook")
      (some { event_type := some "merge_request", object_attributes := none, project := none })
      (fun _ => true)
      (Client.mk (fun _ => none) (fun _ _ => .ok none) (fun _ _ => .ok false))
      defaultTemplate none = .error :=
  ⟨Or.inl rfl,
   (C1_missing_fields (some "t") (some "Merge Request Hook") none none none none
      (fun _ => true)
      (Client.mk (fun _ => none) (fun _ _ => .ok none) (fun _ _ => .ok false))
      defaultTemplate none (Or.inl rfl)).1,
   (C1_missing_fields (some "t") (some "Merge Request Hook") none none none none
      (fun _ => true)
      (Client.mk (fun _ => none) (fun _ _ => .ok none) (fun _ _ => .ok false))
      defaultTemplate none (Or.inl rfl)).2.1⟩

/-! ## Claim theorem: image-name resolution (C8) -/

theorem mapM_option_length {α β : Type} (f : α → Option β) :
    ∀ (l : List α) (r : List β), l.mapM f = some r → r.length = l.length := by
  intro l
  rw [← List.mapM'_eq_mapM]
  induction l with
  | nil =>
    intro r h
    simp [List.mapM'] at h
    simp [← h]
  | cons a as ih =>
    intro r h
    simp only [List.mapM', Option.bind_eq_bind, Option.pure_def] at h ih
    cases hfa : f a with
    | none => rw [hfa] at h; simp at h
    | some b =>
      rw [hfa] at h
      simp only [Option.some_bind] at h
      cases hrest : List.mapM' f as with
      | none => rw [hrest] at h; simp at h
      | some rs =>
        rw [hrest] at h
        simp only [Option.some_bind, Option.some.injEq] at h
        subst h
        simp [ih rs hrest]

/-- **C8.** Image-name resolution splits the template on `,` and
substitutes the branch slug and the source project path into each piece,
one image per piece in template order: the default template with project
path `"grp/app"` and branch slug `"fix-1"` yields exactly
`["grp/app/fix-1"]`; the template `"%(project_path)s/a,%(project_path)s/b"`
yields those two names in that order; in general a successful resolution
yields as many images as the template has comma-separated pieces. -/
theorem C8_template_resolution :
    get_image_delete_list defaultTemplate none "fix-1" "grp/app" = some ["grp/app/fix-1"] ∧
    get_image_delete_list "%(project_path)s/a,%(project_path)s/b" none "fix-1" "grp/app"
      = some ["grp/app/a", "grp/app/b"] ∧
    ∀ (tpl : String) (b p : String) (l : List String),
      get_image_delete_list tpl none b p = some l →
      l.length = (splitComma tpl.toList).length := by
  refine ⟨by decide, by decide, fun tpl b p l h => ?_⟩
  exact mapM_option_length _ _ _ h

theorem C8_template_resolution_witness :
    get_image_delete_list defaultTemplate none "fix-1" "grp/app" = some ["grp/app/fix-1"] ∧
    (["grp/app/fix-1"] : List String).length = (splitComma defaultTemplate.toList).length :=
  ⟨by decide,
   C8_template_resolution.2.2 defaultTemplate "fix-1" "grp/app" ["grp/app/fix-1"] (by decide)⟩

/-! ## Claim theorems: the branch slugifier -/

/-- Modelled from the spec (§8): output matches
`^[a-z0-9]([a-z0-9-]{0,61}[a-z0-9])?$` — head and last character
alphanumeric, only `[a-z0-9-]` inside, length at most 63 — or is empty. -/
def slugSpecOK (s : String) : Bool :=
  match s.toList with
  | [] => true
  | l => l.length ≤ 63 && l.all isSlugChar &&
      (match l.head? with | some c => isAlnumL c | none => false) && lastIsAlnum l

theorem collapseAux_length (l : List Char) : ∀ b, (collapseAux b l).length ≤ l.length := by
  induction l with
  | nil => intro b; simp [collapseAux]
  | cons c rest ih =>
    intro b
    by_cases hc : isSlugChar c
    · simp only [collapseAux, hc, if_true, List.length_cons]
      exact Nat.succ_le_succ (ih false)
    · cases b with
      | true =>
        simp only [collapseAux, hc, if_false, if_true, Bool.false_eq_true]
        exact Nat.le_succ_of_le (ih true)
      | false =>
        simp only [collapseAux, hc, if_false, Bool.false_eq_true, List.length_cons]
        exact Nat.succ_le_succ (ih true)

theorem collapseAux_all (l : List Char) : ∀ b, (collapseAux b l).all isSlugChar = true := by
  induction l with
  | nil => intro b; simp [collapseAux]
  | cons c rest ih =>
    intro b
    by_cases hc : isSlugChar c
    · simp [collapseAux, hc, ih false]
    · cases b with
      | true => simp [collapseAux, hc, ih true]
      | false =>
        simp [collapseAux, hc, ih true]
        decide

theorem checkSplit_eq_some (s : List Char) (a g : Nat) (G : List Char)
    (h : checkSplit s a g = some G) :
    G = (s.drop a).take g ∧ 2 ≤ g ∧ G.length = g ∧
    (s.take a).all (fun c => c == '-') = true ∧ G.all isSlugChar = true ∧
    lastIsAlnum G = true ∧ ((s.drop a).drop g).all (fun c => c == '-') = true := by
  simp only [checkSplit] at h
  split at h
  · next hcond =>
    simp only [Bool.and_eq_true, beq_iff_eq, decide_eq_true_eq, Nat.ble_eq] at hcond
    cases h
    refine ⟨rfl, ?_, ?_, ?_, ?_, ?_, ?_⟩ <;> tauto
  · exact absurd h (by simp)

theorem tryG_eq_some (s : List Char) (a : Nat) :
    ∀ (g : Nat) (G : List Char), tryG s a g = some G →
    ∃ g2, checkSplit s a g2 = some G := by
  intro g
  induction g using Nat.strong_induction_on with
  | _ g ih =>
    intro G h
    match g, h with
    | g + 2, h =>
      simp only [tryG] at h
      cases hc : checkSplit s a (g + 2) with
      | some G2 => rw [hc] at h; cases h; exact ⟨g + 2, hc⟩
      | none =>
        rw [hc] at h
        exact ih (g + 1) (by omega) G h

theorem tryFrom_eq_some (s : List Char) :
    ∀ (a : Nat) (G : List Char), tryFrom s a = some G →
    ∃ a2 g2, checkSplit s a2 g2 = some G := by
  intro a
  induction a with
  | zero =>
    intro G h
    simp only [tryFrom] at h
    obtain ⟨g2, hg⟩ := tryG_eq_some s 0 s.length G h
    exact ⟨0, g2, hg⟩
  | succ a ih =>
    intro G h
    simp only [tryFrom] at h
    cases hc : tryG s (a + 1) ((s.drop (a + 1)).length) with
    | some G2 =>
      rw [hc] at h; cases h
      obtain ⟨g2, hg⟩ := tryG_eq_some s (a + 1) _ G hc
      exact ⟨a + 1, g2, hg⟩
    | none =>
      rw [hc] at h
      exact ih G h

theorem reSub2_length (s : List Char) : (reSub2 s).length ≤ s.length := by
  rw [reSub2]
  cases h : tryFrom s (leadHyphens s) with
  | none => exact Nat.le_refl _
  | some G =>
    obtain ⟨a2, g2, hg⟩ := tryFrom_eq_some s _ G h
    obtain ⟨hG, -⟩ := checkSplit_eq_some s a2 g2 G hg
    subst hG
    calc ((s.drop a2).take g2).length ≤ (s.drop a2).length := by
          rw [List.length_take]; exact Nat.min_le_right _ _
      _ ≤ s.length := by rw [List.length_drop]; exact Nat.sub_le _ _

theorem reSub2_all (s : List Char) (hs : s.all isSlugChar = true) :
    (reSub2 s).all isSlugChar = true := by
  rw [reSub2]
  cases h : tryFrom s (leadHyphens s) with
  | none => exact hs
  | some G =>
    obtain ⟨a2, g2, hg⟩ := tryFrom_eq_some s _ G h
    exact (checkSplit_eq_some s a2 g2 G hg).2.2.2.2.1

/-- **C2 counterexample.**  `slugify "a!"` is `"a-"`, which ends in a
hyphen, so the output neither is empty nor matches
`^[a-z0-9]([a-z0-9-]{0,61}[a-z0-9])?$`. -/
theorem C2_counterexample :
    slugify "a!" = "a-" ∧ slugSpecOK (slugify "a!") = false := by
  constructor
  · decide
  · decide

/-- **C2 (amended).**  For every string the slugifier's output has length
at most 63 and consists only of `[a-z0-9-]` characters (in particular it is
lowercase); it can, however, begin or end with a hyphen (`slugify "a!" =
"a-"`), because the strip regex `^-*([a-z0-9-]+[a-z0-9])-*$` demands a
two-character core and so fails to strip around a single alphanumeric. -/
theorem C2_slug_charset_length (x : String) :
    (slugify x).length ≤ 63 ∧ (slugify x).toList.all isSlugChar = true := by
  constructor
  · show (reSub2 (collapse ((x.toList.map lowerChar).take 63))).length ≤ 63
    calc (reSub2 (collapse ((x.toList.map lowerChar).take 63))).length
        ≤ (collapse ((x.toList.map lowerChar).take 63)).length := reSub2_length _
      _ ≤ ((x.toList.map lowerChar).take 63).length := collapseAux_length _ false
      _ ≤ 63 := by rw [List.length_take]; exact Nat.min_le_left _ _
  · exact reSub2_all _ (collapseAux_all _ false)

/-! ### C7: idempotence of the slugifier

The second pass changes nothing: the first pass's output consists of
`[a-z0-9-]` characters only (so lowering, truncating and collapsing fix
it), and the strip regex either already failed (same input, same failure)
or produced a group it maps to itself.  The latter needs the shape of the
group the backtracking engine returns: its head is alphanumeric, unless it
is the two-character `-x` group produced around a single alphanumeric. -/

theorem alnum_isSlug (c : Char) (h : isAlnumL c = true) : isSlugChar c = true := by
  simp [isSlugChar, h]

theorem alnum_ne_hyphen (c : Char) (h : isAlnumL c = true) : c ≠ '-' := by
  intro he
  subst he
  revert h
  decide

theorem slug_not_hyphen (c : Char) (h1 : isSlugChar c = true) (h2 : ¬ c = '-') :
    isAlnumL c = true := by
  simp only [isSlugChar, Bool.or_eq_true, beq_iff_eq] at h1
  tauto

theorem lowerChar_slug_fix (c : Char) (h : isSlugChar c = true) : lowerChar c = c := by
  rw [lowerChar, if_neg]
  simp only [Bool.and_eq_true, decide_eq_true_eq, not_and]
  intro hAc hcZ
  simp only [isSlugChar, isAlnumL, isLowerAZ, isDigit09, Bool.or_eq_true, Bool.and_eq_true,
    decide_eq_true_eq, beq_iff_eq] at h
  rcases h with (⟨hac, _⟩ | ⟨_, hc9⟩) | hch
  · exact absurd (le_trans hac hcZ) (by decide)
  · exact absurd (le_trans hAc hc9) (by decide)
  · subst hch; exact absurd hAc (by decide)

theorem map_lowerChar_fix (l : List Char) (h : l.all isSlugChar = true) :
    l.map lowerChar = l := by
  induction l with
  | nil => rfl
  | cons c rest ih =>
    simp only [List.all_cons, Bool.and_eq_true] at h
    simp [lowerChar_slug_fix c h.1, ih h.2]

theorem collapseAux_fix (l : List Char) (h : l.all isSlugChar = true) :
    collapseAux false l = l := by
  induction l with
  | nil => rfl
  | cons c rest ih =>
    simp only [List.all_cons, Bool.and_eq_true] at h
    simp [collapseAux, h.1, ih h.2]

theorem collapse_fix (l : List Char) (h : l.all isSlugChar = true) : collapse l = l :=
  collapseAux_fix l h

theorem take_cons_inv (l : List Char) (g : Nat) (c : Char) (t : List Char)
    (h : l.take g = c :: t) : ∃ t2, l = c :: t2 ∧ t = t2.take (g - 1) := by
  cases l with
  | nil => simp at h
  | cons d t2 =>
    cases g with
    | zero => simp at h
    | succ g =>
      simp only [List.take_succ_cons, List.cons.injEq] at h
      exact ⟨t2, by rw [h.1], by rw [← h.2]; simp⟩

theorem lead_drop_head (s : List Char) :
    ∀ c, (s.drop (leadHyphens s)).head? = some c → c ≠ '-' := by
  induction s with
  | nil => intro c h; simp at h
  | cons d rest ih =>
    intro c h
    by_cases hd : d = '-'
    · subst hd
      simp only [leadHyphens, if_pos rfl, List.drop_succ_cons] at h
      exact ih c h
    · simp only [leadHyphens, if_neg hd, List.drop_zero, List.head?_cons,
        Option.some.injEq] at h
      subst h
      exact hd

theorem checkSplit_build (s : List Char) (a g : Nat)
    (h1 : 2 ≤ g) (h2 : ((s.drop a).take g).length = g)
    (h3 : (s.take a).all (fun c => c == '-') = true)
    (h4 : ((s.drop a).take g).all isSlugChar = true)
    (h5 : lastIsAlnum ((s.drop a).take g) = true)
    (h6 : ((s.drop a).drop g).all (fun c => c == '-') = true) :
    checkSplit s a g = some ((s.drop a).take g) := by
  simp only [checkSplit]
  rw [if_pos]
  simp only [Bool.and_eq_true, beq_iff_eq, decide_eq_true_eq]
  exact ⟨⟨⟨⟨⟨h1, h2⟩, h3⟩, h4⟩, h5⟩, h6⟩

theorem tryG_none_all (s : List Char) (a : Nat) :
    ∀ g0, tryG s a g0 = none → ∀ g, 2 ≤ g → g ≤ g0 → checkSplit s a g = none := by
  intro g0
  induction g0 using Nat.strong_induction_on with
  | _ g0 ih =>
    match g0 with
    | 0 => intro _ g hg2 hgle; omega
    | 1 => intro _ g hg2 hgle; omega
    | g0 + 2 =>
      intro h g hg2 hgle
      simp only [tryG] at h
      cases hc : checkSplit s a (g0 + 2) with
      | some G => rw [hc] at h; cases h
      | none =>
        rw [hc] at h
        rcases Nat.eq_or_lt_of_le hgle with he | hlt
        · rw [he]; exact hc
        · exact ih (g0 + 1) (by omega) h g hg2 (by omega)

theorem tryFrom_first (s : List Char) :
    ∀ (a0 : Nat) (G : List Char), tryFrom s a0 = some G →
    ∃ a, a ≤ a0 ∧ tryG s a ((s.drop a).length) = some G ∧
      (a < a0 → tryG s (a + 1) ((s.drop (a + 1)).length) = none) := by
  intro a0
  induction a0 with
  | zero =>
    intro G h
    simp only [tryFrom] at h
    refine ⟨0, Nat.le_refl _, ?_, fun hlt => absurd hlt (by omega)⟩
    simpa using h
  | succ a0 ih =>
    intro G h
    simp only [tryFrom] at h
    cases hc : tryG s (a0 + 1) ((s.drop (a0 + 1)).length) with
    | some G2 =>
      rw [hc] at h
      cases h
      exact ⟨a0 + 1, Nat.le_refl _, hc, fun hlt => absurd hlt (by omega)⟩
    | none =>
      rw [hc] at h
      obtain ⟨a, ha, hG, hnext⟩ := ih G h
      refine ⟨a, by omega, hG, fun hlt => ?_⟩
      rcases Nat.eq_or_lt_of_le (Nat.le_of_lt_succ hlt) with he | hlt2
      · rw [he]; exact hc
      · exact hnext hlt2

theorem lastIsAlnum_cons₂ (c b : Char) (t : List Char) :
    lastIsAlnum (c :: b :: t) = lastIsAlnum (b :: t) := by
  simp [lastIsAlnum, List.getLast?_cons_cons]

/-- The group returned by the backtracking engine either starts with an
alphanumeric character or is the two-character `['-', x]` group: were its
head a hyphen with at least two characters behind it, the engine would
already have succeeded one hyphen further right (or, at the very start of
the search, the leading `-*` would have taken that hyphen). -/
theorem reSub2_shape (s G : List Char) (h : tryFrom s (leadHyphens s) = some G) :
    (∃ c t, G = c :: t ∧ isAlnumL c = true) ∨ (∃ x, G = ['-', x] ∧ isAlnumL x = true) := by
  obtain ⟨a, ha0, hG, hnext⟩ := tryFrom_first s (leadHyphens s) G h
  obtain ⟨g, hcs⟩ := tryG_eq_some s a _ G hG
  obtain ⟨hGdef, hg2, hGlen, hA, hGall, hGlast, hB⟩ := checkSplit_eq_some s a g G hcs
  obtain ⟨c, t, rfl⟩ : ∃ c t, G = c :: t := by
    cases G with
    | nil => simp at hGlen; omega
    | cons c t => exact ⟨c, t, rfl⟩
  by_cases hc : c = '-'
  · subst hc
    obtain ⟨t2, hdrop, htail⟩ := take_cons_inv (s.drop a) g '-' t hGdef.symm
    by_cases hlen3 : 3 ≤ g
    · exfalso
      rcases Nat.lt_or_ge a (leadHyphens s) with halt | hage
      · -- the shifted attempt at `(a+1, g-1)` would have succeeded earlier
        have hdlen : t.length = g - 1 := by
          simp only [List.length_cons] at hGlen
          omega
        have hd1 : s.drop (a + 1) = t2 := by
          have h11 : (s.drop a).drop 1 = s.drop (a + 1) := List.drop_drop 1 a s
          rw [← h11, hdrop]
          rfl
        have htake : (s.drop (a + 1)).take (g - 1) = t := by rw [hd1, ← htail]
        have h2x : ((s.drop (a + 1)).take (g - 1)).length = g - 1 := by
          rw [htake, hdlen]
        have h3x : (s.take (a + 1)).all (fun c => c == '-') = true := by
          have hta : s.take (a + 1) = s.take a ++ (s.drop a).take 1 := List.take_add s a 1
          rw [hta, List.all_append, Bool.and_eq_true]
          refine ⟨hA, ?_⟩
          rw [hdrop]
          rfl
        have h4x : ((s.drop (a + 1)).take (g - 1)).all isSlugChar = true := by
          rw [htake]
          simp only [List.all_cons, Bool.and_eq_true] at hGall
          exact hGall.2
        have h5x : lastIsAlnum ((s.drop (a + 1)).take (g - 1)) = true := by
          rw [htake]
          cases t with
          | nil => exfalso; rw [List.length_nil] at hdlen; omega
          | cons b t3 => rw [← lastIsAlnum_cons₂ '-' b t3]; exact hGlast
        have h6x : ((s.drop (a + 1)).drop (g - 1)).all (fun c => c == '-') = true := by
          rw [hd1]
          have hBr : (s.drop a).drop g = t2.drop (g - 1) := by
            rw [hdrop]
            cases g with
            | zero => omega
            | succ g1 => simp
          rw [hBr] at hB
          exact hB
        have hbuild := checkSplit_build s (a + 1) (g - 1) (by omega) h2x h3x h4x h5x h6x
        have hgle : g - 1 ≤ (s.drop (a + 1)).length := by
          have hmin : min (g - 1) t2.length = g - 1 := by
            have h9 := h2x
            rw [hd1, List.length_take] at h9
            exact h9
          rw [hd1]
          exact min_eq_left_iff.mp hmin
        have hnone := tryG_none_all s (a + 1) _ (hnext halt) (g - 1) (by omega) hgle
        rw [hbuild] at hnone
        cases hnone
      · -- the head of `s.drop (leadHyphens s)` is never a hyphen
        have haeq : a = leadHyphens s := Nat.le_antisymm ha0 hage
        have hhead : (s.drop (leadHyphens s)).head? = some '-' := by
          rw [← haeq, hdrop]
          rfl
        exact (lead_drop_head s '-' hhead) rfl
    · -- `g = 2`: the two-character group `['-', x]`
      have hg : g = 2 := by omega
      subst hg
      cases t with
      | nil => exfalso; simp at hGlen
      | cons x t3 =>
        cases t3 with
        | nil =>
          right
          refine ⟨x, rfl, ?_⟩
          simpa [lastIsAlnum] using hGlast
        | cons y t4 =>
          exfalso
          simp only [List.length_cons] at hGlen
          omega
  · left
    refine ⟨c, t, rfl, ?_⟩
    simp only [List.all_cons, Bool.and_eq_true] at hGall
    exact slug_not_hyphen c hGall.1 hc

theorem tryG_hit (s : List Char) (a g : Nat) (G : List Char)
    (h : checkSplit s a g = some G) (hg : 2 ≤ g) : tryG s a g = some G := by
  match g, hg with
  | g + 2, _ => simp only [tryG, h]

/-- Groups of the shape the engine returns are fixed points of the
substitution. -/
theorem reSub2_fixed_core (G : List Char) (hall : G.all isSlugChar = true)
    (hlast : lastIsAlnum G = true) (hlen : 2 ≤ G.length)
    (hshape : (∃ c t, G = c :: t ∧ isAlnumL c = true) ∨
      (∃ x, G = ['-', x] ∧ isAlnumL x = true)) :
    reSub2 G = G := by
  rcases hshape with ⟨c, t, rfl, hca⟩ | ⟨x, rfl, hxa⟩
  · have hld : leadHyphens (c :: t) = 0 := by
      simp [leadHyphens, alnum_ne_hyphen c hca]
    have hcs : checkSplit (c :: t) 0 (c :: t).length = some (c :: t) := by
      have hb := checkSplit_build (c :: t) 0 (c :: t).length hlen
        (by simp) (by simp) (by simpa using hall) (by simpa using hlast) (by simp)
      simpa using hb
    rw [reSub2, hld]
    simp only [tryFrom]
    rw [tryG_hit _ _ _ _ hcs hlen]
  · have hxh : x ≠ '-' := alnum_ne_hyphen x hxa
    have hld : leadHyphens ['-', x] = 1 := by simp [leadHyphens, hxh]
    have hcs : checkSplit ['-', x] 0 2 = some ['-', x] := by
      have hb := checkSplit_build ['-', x] 0 2 (by omega)
        (by simp) (by simp) (by simp [alnum_isSlug x hxa]; decide)
        (by simpa [lastIsAlnum] using hxa) (by simp)
      simpa using hb
    have hnone : tryG ['-', x] 1 ((['-', x].drop 1).length) = none := rfl
    rw [reSub2, hld]
    simp only [tryFrom, hnone]
    rw [tryG_hit (['-', x]) 0 ((['-', x] : List Char).length) (['-', x]) hcs (by simp)]

/-- The substitution of line 126 is idempotent (on every string). -/
theorem reSub2_idem (s : List Char) : reSub2 (reSub2 s) = reSub2 s := by
  cases h : tryFrom s (leadHyphens s) with
  | none =>
    have h1 : reSub2 s = s := by rw [reSub2, h]
    rw [h1]
    exact h1
  | some G =>
    have h1 : reSub2 s = G := by rw [reSub2, h]
    obtain ⟨a2, g2, hcs⟩ := tryFrom_eq_some s _ G h
    obtain ⟨hGdef, hg2, hGlen, hA, hGall, hGlast, hB⟩ := checkSplit_eq_some s a2 g2 G hcs
    rw [h1]
    exact reSub2_fixed_core G hGall hGlast (by omega) (reSub2_shape s G h)

/-- **C7.** The branch slugifier is idempotent: slugifying an already
slugified branch name changes nothing. -/
theorem C7_slugify_idempotent (x : String) : slugify (slugify x) = slugify x := by
  have hu : (collapse ((x.toList.map lowerChar).take 63)).all isSlugChar = true :=
    collapseAux_all _ false
  have hy_all : (reSub2 (collapse ((x.toList.map lowerChar).take 63))).all isSlugChar = true :=
    reSub2_all _ hu
  have hy_len : (reSub2 (collapse ((x.toList.map lowerChar).take 63))).length ≤ 63 := by
    calc (reSub2 (collapse ((x.toList.map lowerChar).take 63))).length
        ≤ (collapse ((x.toList.map lowerChar).take 63)).length := reSub2_length _
      _ ≤ ((x.toList.map lowerChar).take 63).length := collapseAux_length _ false
      _ ≤ 63 := by rw [List.length_take]; exact Nat.min_le_left _ _
  show String.mk (reSub2 (collapse
      (((String.mk (reSub2 (collapse ((x.toList.map lowerChar).take 63)))).toList.map
        lowerChar).take 63))) = _
  have htl : (String.mk (reSub2 (collapse ((x.toList.map lowerChar).take 63)))).toList
      = reSub2 (collapse ((x.toList.map lowerChar).take 63)) := rfl
  rw [htl, map_lowerChar_fix _ hy_all, List.take_of_length_le hy_len,
    collapse_fix _ hy_all, reSub2_idem]
  rfl

end Hook
